import Mathlib

/-!
Shallow embedding of the in-memory music recommendation engine of
`src/api/recommendation_engine.py` (class `RecommendationEngine`), together
with the parts of the data model it works over.

External numerical libraries are embedded by their documented semantics:
* `np.unique` returns the sorted list of distinct values
  (embedded as `npUnique`);
* `scipy.sparse.csr_matrix((data, (rows, cols)))` sums duplicate
  coordinates; `nnz` counts stored entries, i.e. distinct coordinates,
  including explicit zeros (embedded as `userItemCell` / `nnzVal`);
* Python `sorted(key=..., reverse=True)` is a stable descending sort
  (embedded as `sortDesc`, a stable insertion sort);
* `sklearn.NearestNeighbors(algorithm="brute").kneighbors` returns the
  fitted rows ordered by ascending distance to the query (ties resolved
  deterministically here by ascending row index), and raises when
  `n_neighbors` exceeds the number of fitted samples;
* `sklearn.TruncatedSVD.fit_transform` is an external numeric routine,
  taken as a parameter (`svd`), returning `none` on numeric failure (the
  engine catches that failure and falls back to the raw matrix);
* degenerate inputs are rejected inside the library calls: `csr_matrix`
  refuses the empty object-dtype data column of an empty record set, and
  `sklearn.cosine_similarity` refuses a genre matrix with zero samples —
  untyped errors the engine does not catch;
* `fuzzywuzzy.process.extractOne` returns the choice maximizing a string
  similarity scorer, keeping the first of equal maxima; the scorer is an
  external function, taken as a parameter (`score`);
* a Python `dict` built from a sequence of key/value pairs keeps the last
  binding of each key.

Play counts, matrix cells and similarity values are modelled over `ℚ`
(plays themselves as `ℕ`); floating point rounding issues are out of scope.
-/

/-- A row of the `frequency` table as selected by
`DatabaseManager.get_song_frequency_data` (`src/api/database.py`):
a (userid, songid, plays) triple. -/
structure Interaction where
  userid : Nat
  songid : Nat
  plays : Nat
deriving DecidableEq, Repr

/-- A row of the song-details table as selected by
`DatabaseManager.get_song_details_data`: (songid, title, genre). -/
structure SongDetail where
  songid : Nat
  title : String
  genre : String
deriving DecidableEq, Repr

instance : Inhabited SongDetail := ⟨⟨0, "", ""⟩⟩

/-- A row returned by `DatabaseManager.get_song_by_id`
(title, genre, artist; other passthrough columns omitted). -/
structure DbRow where
  title : String
  genre : Option String
  artist : Option String
deriving DecidableEq, Repr

/-- The `SongInfo` pydantic model (`src/api/models.py`). -/
structure SongInfo where
  song_id : Nat
  title : String
  genre : Option String
  artist : Option String
  similarity_score : Option ℚ
deriving DecidableEq, Repr

/-- `np.unique`: the sorted list of distinct values of a list
(a structurally recursive sort, so that concrete instances evaluate). -/
def npUnique (l : List Nat) : List Nat :=
  List.insertionSort (· ≤ ·) l.dedup

/-- The userid column of the frequency table. -/
def userIds (recs : List Interaction) : List Nat :=
  recs.map (·.userid)

/-- The songid column of the frequency table. -/
def songIds (recs : List Interaction) : List Nat :=
  recs.map (·.songid)

/-- `self.user_mapper`: `dict(zip(np.unique(df["userid"]), range(M)))`,
as a forward map userid → dense row index (`List.indexOf` into the
sorted distinct list). -/
def userMapperFwd (recs : List Interaction) (u : Nat) : Nat :=
  (npUnique (userIds recs)).indexOf u

/-- `self.song_mapper`: songid → dense column index. -/
def songMapperFwd (recs : List Interaction) (s : Nat) : Nat :=
  (npUnique (songIds recs)).indexOf s

/-- `self.user_inv_mapper`: dense row index → userid. -/
def userMapperBwd (recs : List Interaction) (i : Nat) : Option Nat :=
  (npUnique (userIds recs))[i]?

/-- `self.song_inv_mapper`: dense column index → songid. -/
def songMapperBwd (recs : List Interaction) (i : Nat) : Option Nat :=
  (npUnique (songIds recs))[i]?

/-- `M`: number of distinct users (`df['userid'].nunique()`). -/
def numUsers (recs : List Interaction) : Nat :=
  (npUnique (userIds recs)).length

/-- `N`: number of distinct songs (`df['songid'].nunique()`). -/
def numSongs (recs : List Interaction) : Nat :=
  (npUnique (songIds recs)).length

/-- Cell (i, j) of the sparse user-item matrix built by
`_create_user_item_matrix` via
`csr_matrix((df["plays"], (user_index, item_index)), shape=(M, N))`:
scipy sums the play counts of all records whose mapped coordinates
equal (i, j). -/
def userItemCell (recs : List Interaction) (i j : Nat) : Nat :=
  (recs.map fun r =>
    if userMapperFwd recs r.userid = i ∧ songMapperFwd recs r.songid = j
    then r.plays else 0).sum

/-- The number of stored entries (`nnz`) of the csr matrix: scipy's
COO→CSR conversion merges duplicate coordinates but keeps explicitly
stored zeros, so `nnz` is the number of distinct (row, col) coordinate
pairs occurring in the records. -/
def nnzVal (recs : List Interaction) : Nat :=
  ((recs.map fun r =>
    (userMapperFwd recs r.userid, songMapperFwd recs r.songid)).toFinset).card

/-- The number of grid cells of the user-item matrix holding a non-zero
value (a derived quantity, used to compare against `nnz`). -/
def nonzeroCellsVal (recs : List Interaction) : Nat :=
  ((Finset.range (numUsers recs) ×ˢ Finset.range (numSongs recs)).filter
    fun p => userItemCell recs p.1 p.2 ≠ 0).card

section StableSort

variable {α : Type*}

/-- One step of Python's stable sort in descending key order: insert `a`
after every element whose key is ≥ its own (so equal keys keep their
original relative order). -/
def insertDesc (p : α → ℚ) (a : α) : List α → List α
  | [] => [a]
  | b :: bs => if p b < p a then a :: b :: bs else b :: insertDesc p a bs

/-- Python's `sorted(l, key=p, reverse=True)`: a stable sort by
descending key, realized as a left fold of stable insertions. -/
def sortDesc (p : α → ℚ) (l : List α) : List α :=
  l.foldl (fun acc a => insertDesc p a acc) []

theorem insertDesc_perm (p : α → ℚ) (a : α) (l : List α) :
    List.Perm (insertDesc p a l) (a :: l) := by
  induction l with
  | nil => rfl
  | cons b bs ih =>
    by_cases h : p b < p a
    · simp [insertDesc, h]
    · simp only [insertDesc, if_neg h]
      exact ((ih.cons b).trans (List.Perm.swap a b bs))

theorem mem_insertDesc {p : α → ℚ} {a x : α} {l : List α} :
    x ∈ insertDesc p a l ↔ x = a ∨ x ∈ l := by
  constructor
  · intro h
    have := (insertDesc_perm p a l).mem_iff.mp h
    simpa using this
  · intro h
    exact (insertDesc_perm p a l).mem_iff.mpr (by simpa using h)

theorem sortDesc_perm (p : α → ℚ) (l : List α) : List.Perm (sortDesc p l) l := by
  suffices h : ∀ (l acc : List α),
      List.Perm (l.foldl (fun acc a => insertDesc p a acc) acc) (acc ++ l) by
    simpa using h l []
  intro l
  induction l with
  | nil => intro acc; simp
  | cons a l ih =>
    intro acc
    have h1 : List.Perm (l.foldl (fun acc a => insertDesc p a acc)
        (insertDesc p a acc)) (insertDesc p a acc ++ l) := ih _
    have h2 : List.Perm (insertDesc p a acc ++ l) ((a :: acc) ++ l) :=
      (insertDesc_perm p a acc).append_right l
    have h3 : List.Perm ((a :: acc) ++ l) (acc ++ a :: l) := by
      simpa using (List.perm_middle.symm :
        List.Perm (a :: (acc ++ l)) (acc ++ a :: l))
    exact (h1.trans h2).trans h3

theorem mem_sortDesc {p : α → ℚ} {x : α} {l : List α} :
    x ∈ sortDesc p l ↔ x ∈ l :=
  (sortDesc_perm p l).mem_iff

/-- Keys are weakly descending in `insertDesc`'s output. -/
theorem insertDesc_sorted (p : α → ℚ) (a : α) (l : List α)
    (hl : l.Pairwise (fun x y => p y ≤ p x)) :
    (insertDesc p a l).Pairwise (fun x y => p y ≤ p x) := by
  induction l with
  | nil => simp [insertDesc]
  | cons b bs ih =>
    rcases List.pairwise_cons.mp hl with ⟨hb, hbs⟩
    by_cases h : p b < p a
    · simp only [insertDesc, if_pos h]
      refine List.pairwise_cons.mpr ⟨?_, hl⟩
      intro y hy
      rcases List.mem_cons.mp hy with rfl | hy
      · exact le_of_lt h
      · exact le_trans (hb y hy) (le_of_lt h)
    · simp only [insertDesc, if_neg h]
      refine List.pairwise_cons.mpr ⟨?_, ih hbs⟩
      intro y hy
      rcases mem_insertDesc.mp hy with rfl | hy
      · exact le_of_not_lt h
      · exact hb y hy

/-- `sortDesc` output is weakly descending in the key. -/
theorem sortDesc_sorted (p : α → ℚ) (l : List α) :
    (sortDesc p l).Pairwise (fun x y => p y ≤ p x) := by
  suffices h : ∀ (l acc : List α),
      acc.Pairwise (fun x y => p y ≤ p x) →
      (l.foldl (fun acc a => insertDesc p a acc) acc).Pairwise
        (fun x y => p y ≤ p x) by
    exact h l [] (by simp)
  intro l
  induction l with
  | nil => intro acc hacc; simpa using hacc
  | cons a l ih =>
    intro acc hacc
    exact ih _ (insertDesc_sorted p a acc hacc)

/-- The strict order produced by a stable descending sort of a list whose
tags `t` strictly increase: strictly larger key first, ties by ascending
tag. -/
def DescTie (p : α → ℚ) (t : α → Nat) (x y : α) : Prop :=
  p y < p x ∨ (p x = p y ∧ t x < t y)

theorem insertDesc_pairwise_descTie (p : α → ℚ) (t : α → Nat) (a : α)
    (l : List α) (hl : l.Pairwise (DescTie p t))
    (ht : ∀ x ∈ l, t x < t a) :
    (insertDesc p a l).Pairwise (DescTie p t) := by
  induction l with
  | nil => simp [insertDesc]
  | cons b bs ih =>
    rcases List.pairwise_cons.mp hl with ⟨hb, hbs⟩
    by_cases h : p b < p a
    · simp only [insertDesc, if_pos h]
      refine List.pairwise_cons.mpr ⟨?_, hl⟩
      intro y hy
      rcases List.mem_cons.mp hy with rfl | hy
      · exact Or.inl h
      · rcases hb y hy with hlt | ⟨heq, _⟩
        · exact Or.inl (lt_trans hlt h)
        · exact Or.inl (heq ▸ h)
    · simp only [insertDesc, if_neg h]
      refine List.pairwise_cons.mpr ⟨?_, ih hbs (fun x hx => ht x (by simp [hx]))⟩
      intro y hy
      rcases mem_insertDesc.mp hy with rfl | hy
      · rcases lt_or_eq_of_le (le_of_not_lt h) with hlt | heq
        · exact Or.inl hlt
        · exact Or.inr ⟨heq.symm, ht b (by simp)⟩
      · exact hb y hy

/-- Stability: sorting a strictly-increasingly tagged list descending by
key yields a list pairwise ordered by `DescTie` (keys descending, equal
keys by ascending tag). -/
theorem sortDesc_pairwise_descTie (p : α → ℚ) (t : α → Nat) (l : List α)
    (hl : l.Pairwise (fun x y => t x < t y)) :
    (sortDesc p l).Pairwise (DescTie p t) := by
  suffices h : ∀ (l acc : List α),
      acc.Pairwise (DescTie p t) →
      l.Pairwise (fun x y => t x < t y) →
      (∀ x ∈ acc, ∀ y ∈ l, t x < t y) →
      (l.foldl (fun acc a => insertDesc p a acc) acc).Pairwise (DescTie p t) by
    exact h l [] (by simp) hl (by simp)
  intro l
  induction l with
  | nil => intro acc hacc _ _; simpa using hacc
  | cons a l ih =>
    intro acc hacc hl hcross
    rcases List.pairwise_cons.mp hl with ⟨ha, hl'⟩
    refine ih _ ?_ hl' ?_
    · exact insertDesc_pairwise_descTie p t a acc hacc
        (fun x hx => hcross x hx a (by simp))
    · intro x hx y hy
      rcases mem_insertDesc.mp hx with rfl | hx
      · exact ha y hy
      · exact hcross x hx y (by simp [hy])

end StableSort

/-! ### Content-based filtering (`_prepare_content_based_filtering`,
`get_content_based_recommendations`) -/

/-- `fuzzywuzzy.process.extractOne(query, choices)` with a scorer
`score`: the first choice attaining the maximal score (`max` with a key
keeps the first of equal maxima); `none` on an empty choice list. -/
def extractOne (score : String → String → Nat) (query : String)
    (choices : List String) : Option String :=
  choices.foldl (fun best c =>
    match best with
    | none => some c
    | some b => if score query b < score query c then some c else some b) none

/-- `self.song_idx = dict(zip(df['title'], df.index))`: a Python dict maps
each title to the index of its **last** occurrence (later bindings
overwrite earlier ones).  `buildIdx i ds` is the dict of `ds` whose rows
are numbered from `i`. -/
def buildIdx (t : String) : Nat → List SongDetail → Option Nat
  | _, [] => none
  | i, d :: ds =>
    match buildIdx t (i + 1) ds with
    | some j => some j
    | none => if d.title = t then some i else none

/-- Lookup of `self.song_idx`: title → row index of its last occurrence
in the song-details table. -/
def songIdxDict (details : List SongDetail) (t : String) : Option Nat :=
  buildIdx t 0 details

/-- The distinct genre strings (`set(...)` over the genre column; the
iteration order of a Python set is arbitrary, and cosine similarity does
not depend on the column order, so an order-preserving dedup is used). -/
def genreCols (details : List SongDetail) : List String :=
  (details.map (·.genre)).dedup

/-- One row of the one-hot genre matrix: `int(g in [x])` per genre
column `g`, where `x` is the song's single genre. -/
def oneHotRow (cols : List String) (g : String) : List ℚ :=
  cols.map fun c => if c = g then 1 else 0

/-- The genre of the song-details row `i` (rows are indexed by table
position; out-of-range reads do not occur in the engine). -/
def genreAt (details : List SongDetail) (i : Nat) : String :=
  (details.getD i default).genre

/-- Dot product of two rows. -/
def dotQ (x y : List ℚ) : ℚ :=
  (List.zipWith (· * ·) x y).sum

/-- Entry (i, j) of `cosine_similarity(song_genres_matrix,
song_genres_matrix)`.  The rows of the one-hot genre matrix are unit
vectors (`dotQ_oneHotRow_self` below), so the cosine of rows i and j
equals their dot product. -/
def cosineSim (details : List SongDetail) (i j : Nat) : ℚ :=
  dotQ (oneHotRow (genreCols details) (genreAt details i))
       (oneHotRow (genreCols details) (genreAt details j))

theorem dotQ_oneHotRow_of_not_mem (cols : List String) (g g' : String)
    (hg : g ∉ cols) :
    dotQ (oneHotRow cols g) (oneHotRow cols g') = 0 := by
  induction cols with
  | nil => rfl
  | cons c cs ih =>
    have hcg : ¬ c = g := fun h => hg (by simp [h])
    have hgs : g ∉ cs := fun h => hg (by simp [h])
    simp only [oneHotRow, List.map_cons, dotQ, List.zipWith_cons_cons,
      List.sum_cons, if_neg hcg, zero_mul, zero_add]
    exact ih hgs

theorem dotQ_oneHotRow (cols : List String) (g g' : String)
    (hnd : cols.Nodup) (hg : g ∈ cols) :
    dotQ (oneHotRow cols g) (oneHotRow cols g') =
      if g = g' then 1 else 0 := by
  induction cols with
  | nil => cases hg
  | cons c cs ih =>
    rcases List.pairwise_cons.mp hnd with ⟨hc, hcs⟩
    rcases List.mem_cons.mp hg with rfl | hg
    · have hgs : g ∉ cs := fun h => (hc g h) rfl
      have htail := dotQ_oneHotRow_of_not_mem cs g g' hgs
      simp only [oneHotRow, List.map_cons, dotQ, List.zipWith_cons_cons,
        List.sum_cons, if_pos rfl, one_mul] at htail ⊢
      rw [show (List.zipWith (· * ·)
          (List.map (fun c => if c = g then (1:ℚ) else 0) cs)
          (List.map (fun c => if c = g' then (1:ℚ) else 0) cs)).sum = 0
        from htail]
      by_cases hgg : g = g'
      · simp [hgg]
      · simp [hgg]
    · have hcg : ¬ c = g := hc g hg
      have := ih hcs hg
      simp only [oneHotRow, List.map_cons, dotQ, List.zipWith_cons_cons,
        List.sum_cons, if_neg hcg, zero_mul, zero_add] at this ⊢
      exact this

theorem dotQ_oneHotRow_self (cols : List String) (g : String)
    (hnd : cols.Nodup) (hg : g ∈ cols) :
    dotQ (oneHotRow cols g) (oneHotRow cols g) = 1 := by
  rw [dotQ_oneHotRow cols g g hnd hg]; simp

/-- The per-row entries `list(enumerate(cosine_sim_matrix[idx]))` for a
resolved query row `idx`. -/
def simScores (details : List SongDetail) (idx : Nat) : List (Nat × ℚ) :=
  (List.range details.length).map fun j => (j, cosineSim details idx j)

/-- The sorted/sliced row list of `get_content_based_recommendations`:
`sorted(sim_scores, key=lambda x: x[1], reverse=True)[1:(n+1)]` —
stable descending sort by similarity, then drop the first entry and keep
the next `n`. -/
def contentRecRows (details : List SongDetail) (idx n : Nat) :
    List (Nat × ℚ) :=
  ((sortDesc (fun p => p.2) (simScores details idx)).drop 1).take n

/-- Building one `SongInfo` from a (row index, similarity) pair via
`song_details_df.iloc[song_idx]`. -/
def mkContentInfo (details : List SongDetail) (p : Nat × ℚ) : SongInfo :=
  let row := details.getD p.1 default
  ⟨row.songid, row.title, some row.genre, none, some p.2⟩

/-- Failure modes of the engine's query operations. -/
inductive EngineErr where
  | notInitialized
  | notFound
  | sklearnError
deriving DecidableEq, Repr

/-- `get_content_based_recommendations(title_string, n)` on an
initialized engine: fuzzy-match the query against the title column,
resolve the matched title through `song_idx` (last occurrence wins),
take the row of the cosine-similarity matrix, sort it stably by
descending similarity, drop the first entry and keep `n`, and package
the rows.  The fuzzy scorer is the external parameter `score`. -/
def getContentBasedRecommendations (score : String → String → Nat)
    (details : List SongDetail) (query : String) (n : Nat) :
    Except EngineErr (String × List SongInfo) :=
  match extractOne score query (details.map (·.title)) with
  | none => .error .notFound
  | some matched =>
    match songIdxDict details matched with
    | none => .error .notFound
    | some idx =>
      .ok (matched, (contentRecRows details idx n).map (mkContentInfo details))

/-! ### Popularity ranking (`get_popular_songs`,
`_get_bayesian_popular_songs`, `_get_frequency_popular_songs`) -/

/-- `_get_song_info(song_id, similarity_score)`: resolve the song through
the data provider `db`; `none` (a skipped item) when the provider has no
such row. -/
def getSongInfo (db : Nat → Option DbRow) (sid : Nat) (sim : Option ℚ) :
    Option SongInfo :=
  (db sid).map fun r => ⟨sid, r.title, r.genre, r.artist, sim⟩

/-- Per-song record count: `groupby('songid')['plays'].count()`. -/
def songCount (recs : List Interaction) (sid : Nat) : Nat :=
  (recs.filter fun r => r.songid = sid).length

/-- Per-song total plays: `groupby('songid')['plays'].sum()`. -/
def songPlaysSum (recs : List Interaction) (sid : Nat) : Nat :=
  ((recs.filter fun r => r.songid = sid).map (·.plays)).sum

/-- Per-song mean plays: `groupby('songid')['plays'].mean()`. -/
def songMean (recs : List Interaction) (sid : Nat) : ℚ :=
  (songPlaysSum recs sid : ℚ) / (songCount recs sid : ℚ)

/-- `C = song_stats['count'].mean()`: the mean of the per-song record
counts over all distinct songs. -/
def bigC (recs : List Interaction) : ℚ :=
  (((npUnique (songIds recs)).map fun sid => (songCount recs sid : ℚ)).sum) /
    (numSongs recs : ℚ)

/-- `m = song_stats['mean'].mean()`: the mean of the per-song mean plays
over all distinct songs. -/
def bigM (recs : List Interaction) : ℚ :=
  (((npUnique (songIds recs)).map fun sid => songMean recs sid).sum) /
    (numSongs recs : ℚ)

/-- `bayesian_avg(row) = (C*m + count*mean) / (C + count)`. -/
def bayesianAvg (recs : List Interaction) (sid : Nat) : ℚ :=
  (bigC recs * bigM recs + (songCount recs sid : ℚ) * songMean recs sid) /
    (bigC recs + (songCount recs sid : ℚ))

/-- `_get_bayesian_popular_songs(limit)`: score every distinct song by
its Bayesian average, sort descending, keep the first `limit`, and
resolve each song through the data provider, silently skipping songs the
provider no longer knows. -/
def bayesianPopularSongs (db : Nat → Option DbRow)
    (recs : List Interaction) (limit : Nat) : List SongInfo :=
  ((sortDesc (fun sid => bayesianAvg recs sid)
      (npUnique (songIds recs))).take limit).filterMap
    fun sid => getSongInfo db sid (some (bayesianAvg recs sid))

/-- `_get_frequency_popular_songs(limit)`: score every distinct song by
its total plays, sort descending, keep the first `limit`, and resolve
each song through the data provider. -/
def frequencyPopularSongs (db : Nat → Option DbRow)
    (recs : List Interaction) (limit : Nat) : List SongInfo :=
  ((sortDesc (fun sid => (songPlaysSum recs sid : ℚ))
      (npUnique (songIds recs))).take limit).filterMap
    fun sid => getSongInfo db sid (some ((songPlaysSum recs sid : ℚ)))

/-- `get_popular_songs(limit, algorithm)` on an initialized engine:
the Bayesian strategy exactly when `algorithm == "bayesian"`, the
frequency strategy for every other selector string. -/
def getPopularSongs (db : Nat → Option DbRow) (recs : List Interaction)
    (limit : Nat) (algorithm : String) : List SongInfo :=
  if algorithm = "bayesian" then bayesianPopularSongs db recs limit
  else frequencyPopularSongs db recs limit

/-! ### Collaborative neighbor search (`find_similar_songs`) -/

/-- The raw fallback factor space `X = user_item_matrix.T.toarray()`:
one row per song column of the interaction matrix. -/
def rawFactorMatrix (recs : List Interaction) : List (List ℚ) :=
  (List.range (numSongs recs)).map fun j =>
    (List.range (numUsers recs)).map fun i => (userItemCell recs i j : ℚ)

/-- `NearestNeighbors(n_neighbors=m, algorithm="brute").kneighbors`:
the row indices of `X` ordered by ascending distance to the query row
(ties by ascending row index — the library leaves ties unspecified; this
embedding fixes the deterministic stable choice), truncated to `m`. -/
def kNeighborIndices (dist : List ℚ → List ℚ → ℚ) (X : List (List ℚ))
    (q : List ℚ) (m : Nat) : List Nat :=
  (sortDesc (fun i => -(dist (X.getD i []) q)) (List.range X.length)).take m

/-- `find_similar_songs(song_id, k, metric)` on an initialized engine.
`X` is the chosen factor space (the reduced matrix when factorization
succeeded, otherwise `rawFactorMatrix`), `dist` the metric function the
library evaluates for the string selector `metric`.  The query vector's
`k+1` nearest rows are retrieved (the library raises when `k+1` exceeds
the number of fitted rows), the first is dropped, and each remaining row
is converted to a similarity (`1 - d` for cosine, `1 / (1 + d)`
otherwise) and resolved through the data provider, skipping songs the
provider no longer knows. -/
def findSimilarSongs (db : Nat → Option DbRow) (recs : List Interaction)
    (X : List (List ℚ)) (dist : List ℚ → List ℚ → ℚ) (metric : String)
    (songId k : Nat) : Except EngineErr (List SongInfo) :=
  if songId ∈ npUnique (songIds recs) then
    let songInd := songMapperFwd recs songId
    let q := X.getD songInd []
    if X.length < k + 1 then .error .sklearnError
    else
      .ok (((kNeighborIndices dist X q (k + 1)).drop 1).filterMap fun idx =>
        let neighborSongId := (npUnique (songIds recs)).getD idx 0
        let d := dist (X.getD idx []) q
        let sim : ℚ := if metric = "cosine" then 1 - d else 1 / (1 + d)
        getSongInfo db neighborSongId (some sim))
  else .error .notFound

/-! ### Lifecycle (`__init__`, `initialize`, `_load_data`,
`_initialize_matrix_factorization`, `_calculate_system_stats`) -/

/-- Python's `round(x, d)` up to the tie-breaking convention (Python
rounds halves to even; no statement here depends on a halfway case). -/
def pyRound (d : Nat) (x : ℚ) : ℚ :=
  (round (x * (10 ^ d : ℚ)) : ℤ) / (10 ^ d : ℚ)

/-- The `self.system_stats` dict computed by `_calculate_system_stats`. -/
structure SysStats where
  total_songs : Nat
  total_users : Nat
  total_plays : Nat
  total_genres : Nat
  sparsity : ℚ
  avg_plays_per_user : ℚ
  avg_plays_per_song : ℚ
  matrix_shape : Nat × Nat
deriving DecidableEq, Repr

/-- Per-user total plays: `groupby('userid')['plays'].sum()`. -/
def userPlaysSum (recs : List Interaction) (uid : Nat) : Nat :=
  ((recs.filter fun r => r.userid = uid).map (·.plays)).sum

/-- `_calculate_system_stats`: fails (Python `ZeroDivisionError`) when
the matrix has no cells (`n_total = M * N = 0`); otherwise publishes the
statistics snapshot, with `sparsity = nnz / n_total * 100` rounded to 4
decimals. -/
def calcSystemStats (recs : List Interaction) (details : List SongDetail) :
    Option SysStats :=
  let M := numUsers recs
  let N := numSongs recs
  if M * N = 0 then none
  else some
    { total_songs := details.length
      total_users := M
      total_genres := (details.map (·.genre)).toFinset.card
      total_plays := (recs.map (·.plays)).sum
      sparsity := pyRound 4 ((nnzVal recs : ℚ) / ((M * N : Nat) : ℚ) * 100)
      avg_plays_per_user := pyRound 2
        ((((npUnique (userIds recs)).map
            fun uid => (userPlaysSum recs uid : ℚ)).sum) / (M : ℚ))
      avg_plays_per_song := pyRound 2
        ((((npUnique (songIds recs)).map
            fun sid => (songPlaysSum recs sid : ℚ)).sum) / (N : ℚ))
      matrix_shape := (M, N) }

/-- The mutable fields of `RecommendationEngine` that `initialize`
rewrites, as left by `__init__` or a previous initialization. -/
structure EngineState where
  is_initialized : Bool
  song_frequency_df : Option (List Interaction)
  song_details_df : Option (List SongDetail)
  user_mapper : List Nat
  song_mapper : List Nat
  song_idx_titles : List String
  reduced_matrix : Option (List (List ℚ))
  system_stats : Option SysStats
deriving DecidableEq, Repr

/-- The state `__init__` leaves behind. -/
def initialEngineState : EngineState :=
  { is_initialized := false
    song_frequency_df := none
    song_details_df := none
    user_mapper := []
    song_mapper := []
    song_idx_titles := []
    reduced_matrix := none
    system_stats := none }

/-- What can abort an `initialize` attempt: a failed data-provider call
(`UpstreamUnavailable`), an untyped library rejection of degenerate data
(scipy's csr constructor refuses the empty object-dtype data column;
sklearn's `cosine_similarity` refuses a genre matrix with zero samples),
or the division by zero in `_calculate_system_stats` (kept as the
faithful reading of that function's own guard, although the earlier
library rejections make it unreachable). -/
inductive InitError where
  | upstream
  | library
  | zeroDivision
deriving DecidableEq, Repr

/-- `initialize()`: run `_load_data` (two provider calls whose outcomes
are the parameters `freqRes` and `detRes`), `_create_user_item_matrix`,
`_prepare_content_based_filtering`, `_initialize_matrix_factorization`
(the external SVD `svd` applied to the transposed interaction matrix;
`none` models the caught numerical failure and raw-matrix fallback) and
`_calculate_system_stats`, mutating `self` field by field in program
order; an exception re-raises after the mutations already performed, so
the state it leaves is the prefix of assignments that ran.

Degenerate data fails inside the library calls, before factorization:
`_create_user_item_matrix` assigns the four mappers and then calls
`csr_matrix`, which rejects the empty object-dtype data column of an
empty record set; `_prepare_content_based_filtering` assigns the title
dict and then calls `cosine_similarity`, which rejects a genre matrix
with zero samples (empty details).  Both raise untyped library errors
that `initialize` re-raises. -/
def initializeEngine (st : EngineState)
    (freqRes : Except Unit (List Interaction))
    (detRes : Except Unit (List SongDetail))
    (svd : List (List ℚ) → Option (List (List ℚ))) :
    EngineState × Option InitError :=
  match freqRes with
  | .error _ => (st, some .upstream)
  | .ok recs =>
    let st1 := { st with song_frequency_df := some recs }
    match detRes with
    | .error _ => (st1, some .upstream)
    | .ok details =>
      let st2 := { st1 with song_details_df := some details }
      let st3 := { st2 with
        user_mapper := npUnique (userIds recs)
        song_mapper := npUnique (songIds recs) }
      if recs = [] then (st3, some .library)
      else
        let st4 := { st3 with
          song_idx_titles := details.map fun (d : SongDetail) => d.title }
        if details = [] then (st4, some .library)
        else
          let st5 := { st4 with
            reduced_matrix := svd (rawFactorMatrix recs) }
          match calcSystemStats recs details with
          | none => (st5, some .zeroDivision)
          | some stats =>
            ({ st5 with
                system_stats := some stats
                is_initialized := true }, none)

/-! ### Helper lemmas about `npUnique` and the mappers -/

theorem npUnique_nodup (l : List Nat) : (npUnique l).Nodup :=
  (List.perm_insertionSort _ _).nodup_iff.mpr (List.nodup_dedup l)

theorem npUnique_sorted_le (l : List Nat) : (npUnique l).Sorted (· ≤ ·) :=
  List.sorted_insertionSort _ _

theorem npUnique_sorted (l : List Nat) : (npUnique l).Sorted (· < ·) :=
  (npUnique_sorted_le l).lt_of_le (npUnique_nodup l)

theorem mem_npUnique {a : Nat} {l : List Nat} : a ∈ npUnique l ↔ a ∈ l := by
  unfold npUnique
  rw [(List.perm_insertionSort (· ≤ ·) l.dedup).mem_iff, List.mem_dedup]

theorem npUnique_perm_eq {l l' : List Nat} (h : List.Perm l l') :
    npUnique l = npUnique l' := by
  refine List.eq_of_perm_of_sorted ?_ (npUnique_sorted_le l) (npUnique_sorted_le l')
  exact (List.perm_insertionSort _ _).trans
    (h.dedup.trans (List.perm_insertionSort _ _).symm)

theorem userIds_perm {recs recs' : List Interaction}
    (h : List.Perm recs recs') : List.Perm (userIds recs) (userIds recs') :=
  h.map _

theorem songIds_perm {recs recs' : List Interaction}
    (h : List.Perm recs recs') : List.Perm (songIds recs) (songIds recs') :=
  h.map _

/-! ### C6: identifier mapper -/

/-- C6: for every interaction record set with at least one distinct user
and one distinct song, the forward and backward user/song mappings are
mutually inverse bijections between the present identifiers and the
dense index ranges, the indices are assigned in ascending sorted order
of the unique key values, and rebuilding from any permutation of the
record set yields identical mappings. -/
theorem identifier_mapper_bijective_sorted_order_independent
    (recs recs' : List Interaction)
    (hperm : List.Perm recs recs') (hne : recs ≠ []) :
    (0 < numUsers recs ∧ 0 < numSongs recs) ∧
    (∀ u ∈ userIds recs,
      userMapperBwd recs (userMapperFwd recs u) = some u) ∧
    (∀ s ∈ songIds recs,
      songMapperBwd recs (songMapperFwd recs s) = some s) ∧
    (∀ i, i < numUsers recs →
      ∃ u, u ∈ userIds recs ∧ userMapperBwd recs i = some u ∧
        userMapperFwd recs u = i) ∧
    (∀ j, j < numSongs recs →
      ∃ s, s ∈ songIds recs ∧ songMapperBwd recs j = some s ∧
        songMapperFwd recs s = j) ∧
    (npUnique (userIds recs)).Sorted (· < ·) ∧
    (npUnique (songIds recs)).Sorted (· < ·) ∧
    userMapperFwd recs = userMapperFwd recs' ∧
    userMapperBwd recs = userMapperBwd recs' ∧
    songMapperFwd recs = songMapperFwd recs' ∧
    songMapperBwd recs = songMapperBwd recs' := by
  have hu : npUnique (userIds recs) = npUnique (userIds recs') :=
    npUnique_perm_eq (userIds_perm hperm)
  have hs : npUnique (songIds recs) = npUnique (songIds recs') :=
    npUnique_perm_eq (songIds_perm hperm)
  refine ⟨⟨?_, ?_⟩, ?_, ?_, ?_, ?_, npUnique_sorted _, npUnique_sorted _,
    ?_, ?_, ?_, ?_⟩
  · rcases List.exists_mem_of_ne_nil recs hne with ⟨r, hr⟩
    have : r.userid ∈ npUnique (userIds recs) :=
      mem_npUnique.mpr (List.mem_map_of_mem _ hr)
    exact List.length_pos.mpr (List.ne_nil_of_mem this)
  · rcases List.exists_mem_of_ne_nil recs hne with ⟨r, hr⟩
    have : r.songid ∈ npUnique (songIds recs) :=
      mem_npUnique.mpr (List.mem_map_of_mem _ hr)
    exact List.length_pos.mpr (List.ne_nil_of_mem this)
  · intro u hu'
    exact List.getElem?_indexOf (mem_npUnique.mpr hu')
  · intro s hs'
    exact List.getElem?_indexOf (mem_npUnique.mpr hs')
  · intro i hi
    refine ⟨(npUnique (userIds recs))[i], ?_, ?_, ?_⟩
    · exact mem_npUnique.mp (List.getElem_mem hi)
    · exact List.getElem?_eq_getElem hi
    · exact List.indexOf_getElem (npUnique_nodup _) i hi
  · intro j hj
    refine ⟨(npUnique (songIds recs))[j], ?_, ?_, ?_⟩
    · exact mem_npUnique.mp (List.getElem_mem hj)
    · exact List.getElem?_eq_getElem hj
    · exact List.indexOf_getElem (npUnique_nodup _) j hj
  · funext u; unfold userMapperFwd; rw [hu]
  · funext i; unfold userMapperBwd; rw [hu]
  · funext s; unfold songMapperFwd; rw [hs]
  · funext j; unfold songMapperBwd; rw [hs]

/-- Witness for C6 at a concrete record set and a permutation of it. -/
theorem identifier_mapper_witness :
    List.Perm [Interaction.mk 7 3 5, Interaction.mk 2 9 1]
        [Interaction.mk 2 9 1, Interaction.mk 7 3 5] ∧
    [Interaction.mk 7 3 5, Interaction.mk 2 9 1] ≠ [] ∧
    userMapperBwd [Interaction.mk 7 3 5, Interaction.mk 2 9 1]
      (userMapperFwd [Interaction.mk 7 3 5, Interaction.mk 2 9 1] 7) =
      some 7 := by
  have hperm : List.Perm [Interaction.mk 7 3 5, Interaction.mk 2 9 1]
      [Interaction.mk 2 9 1, Interaction.mk 7 3 5] :=
    List.Perm.swap _ _ _
  have hne : [Interaction.mk 7 3 5, Interaction.mk 2 9 1] ≠ ([] : List Interaction) := by
    decide
  refine ⟨hperm, hne, ?_⟩
  exact (identifier_mapper_bijective_sorted_order_independent _ _ hperm
    hne).2.1 7 (by decide)

/-! ### C5: interaction matrix cells -/

theorem sum_map_ite_eq_sum_filter (l : List Interaction)
    (P Q : Interaction → Prop) [DecidablePred P] [DecidablePred Q]
    (h : ∀ r ∈ l, P r ↔ Q r) :
    (l.map fun r => if P r then r.plays else 0).sum =
      ((l.filter fun r => decide (Q r)).map (·.plays)).sum := by
  induction l with
  | nil => rfl
  | cons r rs ih =>
    have hr := h r (by simp)
    have ih' := ih fun x hx => h x (by simp [hx])
    by_cases hp : P r
    · have hq : Q r := hr.mp hp
      simp [List.filter_cons, hp, hq, ih']
    · have hq : ¬ Q r := fun hq => hp (hr.mpr hq)
      simp [List.filter_cons, hp, hq, ih']

/-- C5: the interaction matrix cell addressed by the mapped indices of a
present (user, song) pair is the **sum** of the play counts of all
records carrying that pair (duplicates accumulate, they do not
overwrite), and the whole matrix is independent of record order. -/
theorem user_item_matrix_sums_duplicates_order_independent
    (recs recs' : List Interaction) (u s : Nat)
    (hperm : List.Perm recs recs')
    (hu : u ∈ userIds recs) (hs : s ∈ songIds recs) :
    userItemCell recs (userMapperFwd recs u) (songMapperFwd recs s) =
      ((recs.filter fun r =>
          decide (r.userid = u ∧ r.songid = s)).map (·.plays)).sum ∧
    (∀ i j, userItemCell recs i j = userItemCell recs' i j) := by
  constructor
  · apply sum_map_ite_eq_sum_filter
    intro r hr
    constructor
    · rintro ⟨h1, h2⟩
      have hu' : u ∈ npUnique (userIds recs) := mem_npUnique.mpr hu
      have hru : r.userid ∈ npUnique (userIds recs) :=
        mem_npUnique.mpr (List.mem_map_of_mem _ hr)
      have hs' : s ∈ npUnique (songIds recs) := mem_npUnique.mpr hs
      have hrs : r.songid ∈ npUnique (songIds recs) :=
        mem_npUnique.mpr (List.mem_map_of_mem _ hr)
      exact ⟨(List.indexOf_inj hru hu').mp h1,
        (List.indexOf_inj hrs hs').mp h2⟩
    · rintro ⟨h1, h2⟩
      exact ⟨by unfold userMapperFwd; rw [h1],
        by unfold songMapperFwd; rw [h2]⟩
  · intro i j
    have hfwdU : userMapperFwd recs = userMapperFwd recs' := by
      funext x; unfold userMapperFwd
      rw [npUnique_perm_eq (userIds_perm hperm)]
    have hfwdS : songMapperFwd recs = songMapperFwd recs' := by
      funext x; unfold songMapperFwd
      rw [npUnique_perm_eq (songIds_perm hperm)]
    unfold userItemCell
    rw [hfwdU, hfwdS]
    exact List.Perm.sum_eq (hperm.map _)

/-- Witness for C5: records (u1, s1, 3) and (u1, s1, 2) yield cell value
5, independently of record order. -/
theorem user_item_matrix_witness :
    List.Perm [Interaction.mk 1 1 3, Interaction.mk 1 1 2]
        [Interaction.mk 1 1 2, Interaction.mk 1 1 3] ∧
    (1 : Nat) ∈ userIds [Interaction.mk 1 1 3, Interaction.mk 1 1 2] ∧
    (1 : Nat) ∈ songIds [Interaction.mk 1 1 3, Interaction.mk 1 1 2] ∧
    userItemCell [Interaction.mk 1 1 3, Interaction.mk 1 1 2] 0 0 = 5 := by
  have hperm : List.Perm [Interaction.mk 1 1 3, Interaction.mk 1 1 2]
      [Interaction.mk 1 1 2, Interaction.mk 1 1 3] := List.Perm.swap _ _ _
  have hu : (1 : Nat) ∈ userIds [Interaction.mk 1 1 3, Interaction.mk 1 1 2] := by
    decide
  have hs : (1 : Nat) ∈ songIds [Interaction.mk 1 1 3, Interaction.mk 1 1 2] := by
    decide
  refine ⟨hperm, hu, hs, ?_⟩
  have h := (user_item_matrix_sums_duplicates_order_independent _ _ 1 1
    hperm hu hs).1
  have hfwd : userMapperFwd [Interaction.mk 1 1 3, Interaction.mk 1 1 2] 1 = 0 := by
    decide
  have hfwd' : songMapperFwd [Interaction.mk 1 1 3, Interaction.mk 1 1 2] 1 = 0 := by
    decide
  rw [hfwd, hfwd'] at h
  rw [h]
  decide

/-! ### Shared facts about the popularity pipeline -/

theorem getSongInfo_eq_some {db : Nat → Option DbRow} {sid : Nat}
    {sim : Option ℚ} {e : SongInfo} (h : getSongInfo db sid sim = some e) :
    e.song_id = sid ∧ e.similarity_score = sim := by
  unfold getSongInfo at h
  cases hdb : db sid with
  | none => rw [hdb] at h; cases h
  | some r => rw [hdb] at h; cases h; exact ⟨rfl, rfl⟩

/-- Structure of both popularity strategies: sort the distinct songs
descending by a score, truncate, resolve through the provider. -/
theorem popularPipeline_props (db : Nat → Option DbRow)
    (recs : List Interaction) (limit : Nat) (score : Nat → ℚ) :
    (((sortDesc score (npUnique (songIds recs))).take limit).filterMap
        (fun sid => getSongInfo db sid (some (score sid)))).length ≤ limit ∧
    (∀ e ∈ ((sortDesc score (npUnique (songIds recs))).take limit).filterMap
        (fun sid => getSongInfo db sid (some (score sid))),
      e.song_id ∈ songIds recs ∧
        e.similarity_score = some (score e.song_id)) ∧
    (((sortDesc score (npUnique (songIds recs))).take limit).filterMap
        (fun sid => getSongInfo db sid (some (score sid)))).Pairwise
      (fun a b => score b.song_id ≤ score a.song_id) := by
  refine ⟨?_, ?_, ?_⟩
  · exact le_trans (List.length_filterMap_le _ _) (by
      simp)
  · intro e he
    rcases List.mem_filterMap.mp he with ⟨sid, hsid, hsome⟩
    rcases getSongInfo_eq_some hsome with ⟨hid, hsim⟩
    have hmem : sid ∈ npUnique (songIds recs) :=
      mem_sortDesc.mp ((List.take_sublist _ _).mem hsid)
    exact ⟨hid ▸ mem_npUnique.mp hmem, by rw [hsim, hid]⟩
  · apply List.pairwise_filterMap.mpr
    have hsorted : ((sortDesc score (npUnique (songIds recs))).take
        limit).Pairwise (fun a b => score b ≤ score a) :=
      (sortDesc_sorted score _).sublist (List.take_sublist _ _)
    refine hsorted.imp_of_mem ?_
    intro a b _ _ hab x hx y hy
    rcases getSongInfo_eq_some hx with ⟨hxa, _⟩
    rcases getSongInfo_eq_some hy with ⟨hyb, _⟩
    rw [hxa, hyb]
    exact hab

/-! ### C10: unknown popularity selectors -/

/-- C10: on an initialized engine, every algorithm selector other than
exactly `"bayesian"` (unknown and misspelled strings included) silently
selects the frequency strategy — the list ranked by descending total
plays, truncated to `limit` — rather than being rejected with an error
(the operation is total on selector strings). -/
theorem popular_songs_unknown_selector_uses_frequency
    (algorithm : String) (h : algorithm ≠ "bayesian") :
    ∀ (db : Nat → Option DbRow) (recs : List Interaction) (limit : Nat),
      getPopularSongs db recs limit algorithm =
        frequencyPopularSongs db recs limit ∧
      (getPopularSongs db recs limit algorithm).length ≤ limit ∧
      (∀ e ∈ getPopularSongs db recs limit algorithm,
        e.similarity_score = some ((songPlaysSum recs e.song_id : ℚ))) ∧
      (getPopularSongs db recs limit algorithm).Pairwise
        (fun a b => (songPlaysSum recs b.song_id : ℚ) ≤
          (songPlaysSum recs a.song_id : ℚ)) := by
  intro db recs limit
  have heq : getPopularSongs db recs limit algorithm =
      frequencyPopularSongs db recs limit := by
    unfold getPopularSongs
    rw [if_neg h]
  have hprops := popularPipeline_props db recs limit
    (fun sid => (songPlaysSum recs sid : ℚ))
  rw [heq]
  exact ⟨rfl, hprops.1, fun e he => (hprops.2.1 e he).2, hprops.2.2⟩

/-- Witness for C10 at the misspelled selector `"frequencyy"`. -/
theorem popular_songs_unknown_selector_witness :
    ("frequencyy" : String) ≠ "bayesian" ∧
    getPopularSongs (fun sid => if sid = 3 then
        some ⟨"T", some "Pop", none⟩ else none)
      [Interaction.mk 1 3 4] 10 "frequencyy" =
      frequencyPopularSongs (fun sid => if sid = 3 then
        some ⟨"T", some "Pop", none⟩ else none) [Interaction.mk 1 3 4] 10 := by
  have h : ("frequencyy" : String) ≠ "bayesian" := by decide
  exact ⟨h, (popular_songs_unknown_selector_uses_frequency "frequencyy" h
    (fun sid => if sid = 3 then some ⟨"T", some "Pop", none⟩ else none)
    [Interaction.mk 1 3 4] 10).1⟩

/-! ### C7: Bayesian popularity -/

/-- C7: every entry returned by the Bayesian popularity strategy carries
the score `(C*m + count*mean) / (C + count)` of its song — where `count`
and `mean` are the song's interaction-record count and mean plays, `C`
the mean of per-song counts and `m` the mean of per-song means — and the
list is sorted descending by that score and truncated to `limit`. -/
theorem bayesian_popular_songs_scores_sorted_truncated
    (db : Nat → Option DbRow) (recs : List Interaction) (limit : Nat) :
    (∀ e ∈ bayesianPopularSongs db recs limit,
      e.similarity_score = some
        ((bigC recs * bigM recs +
            (songCount recs e.song_id : ℚ) * songMean recs e.song_id) /
          (bigC recs + (songCount recs e.song_id : ℚ)))) ∧
    (bayesianPopularSongs db recs limit).Pairwise
      (fun a b => bayesianAvg recs b.song_id ≤ bayesianAvg recs a.song_id) ∧
    (bayesianPopularSongs db recs limit).length ≤ limit := by
  have hprops := popularPipeline_props db recs limit
    (fun sid => bayesianAvg recs sid)
  exact ⟨fun e he => (hprops.2.1 e he).2, hprops.2.2, hprops.1⟩

/-! ### C9: duplicate titles map to their last occurrence -/

theorem buildIdx_isSome (t : String) :
    ∀ (ds : List SongDetail) (i : Nat),
      (∃ m, m < ds.length ∧ (ds.getD m default).title = t) →
      (buildIdx t i ds).isSome := by
  intro ds
  induction ds with
  | nil =>
    intro i h
    rcases h with ⟨m, hm, _⟩
    exact absurd hm (by simp)
  | cons d ds ih =>
    intro i h
    unfold buildIdx
    by_cases htail : ∃ m, m < ds.length ∧ (ds.getD m default).title = t
    · have := ih (i + 1) htail
      cases hrec : buildIdx t (i + 1) ds with
      | some j => simp
      | none => rw [hrec] at this; cases this
    · rcases h with ⟨m, hm, hmt⟩
      cases m with
      | zero =>
        cases hrec : buildIdx t (i + 1) ds with
        | some j => simp
        | none =>
          simp only [List.getD_cons_zero] at hmt
          simp [hmt]
      | succ m' =>
        exact absurd ⟨m', by simpa using hm, by simpa using hmt⟩ htail

theorem buildIdx_spec (t : String) :
    ∀ (ds : List SongDetail) (i j : Nat), buildIdx t i ds = some j →
      i ≤ j ∧ j < i + ds.length ∧ (ds.getD (j - i) default).title = t ∧
      ∀ m, m < ds.length → (ds.getD m default).title = t → i + m ≤ j := by
  intro ds
  induction ds with
  | nil => intro i j h; cases h
  | cons d ds ih =>
    intro i j h
    unfold buildIdx at h
    cases hrec : buildIdx t (i + 1) ds with
    | some j' =>
      rw [hrec] at h
      obtain rfl : j' = j := by injection h
      rcases ih (i + 1) j' hrec with ⟨h1, h2, h3, h4⟩
      refine ⟨le_trans (Nat.le_succ i) h1,
        by simp only [List.length_cons]; omega, ?_, ?_⟩
      · have hj : j' - i = (j' - (i + 1)) + 1 := by omega
        rw [hj, List.getD_cons_succ]
        exact h3
      · intro m hm hmt
        cases m with
        | zero => omega
        | succ m' =>
          have := h4 m' (by simpa using hm) (by simpa using hmt)
          omega
    | none =>
      rw [hrec] at h
      by_cases hd : d.title = t
      · rw [if_pos hd] at h
        obtain rfl : i = j := by injection h
        refine ⟨le_refl _, by simp, by simpa using hd, ?_⟩
        intro m hm hmt
        cases m with
        | zero => omega
        | succ m' =>
          have hsome : (buildIdx t (i + 1) ds).isSome :=
            buildIdx_isSome t ds (i + 1)
              ⟨m', by simpa using hm, by simpa using hmt⟩
          rw [hrec] at hsome
          cases hsome
      · rw [if_neg hd] at h
        cases h

/-- C9: when several catalog rows share a title, `song_idx` maps that
title to the row of its **last** occurrence in song-details table order;
a content-based query whose fuzzy match returns that title is therefore
resolved against that last row, and no earlier row with the same title
can ever be the resolved query row. -/
theorem duplicate_titles_resolve_to_last_occurrence
    (details : List SongDetail) (t : String) (i : Nat)
    (h : songIdxDict details t = some i) :
    i < details.length ∧
    (details.getD i default).title = t ∧
    (∀ j, j < details.length → (details.getD j default).title = t → j ≤ i) ∧
    (∀ (score : String → String → Nat) (query : String) (n : Nat),
      extractOne score query (details.map (·.title)) = some t →
      getContentBasedRecommendations score details query n =
        .ok (t, (contentRecRows details i n).map (mkContentInfo details))) := by
  rcases buildIdx_spec t details 0 i h with ⟨_, h2, h3, h4⟩
  refine ⟨by simpa using h2, by simpa using h3, ?_, ?_⟩
  · intro j hj hjt
    simpa using h4 j hj hjt
  · intro score query n hmatch
    simp only [getContentBasedRecommendations, hmatch, h]

/-- Witness for C9: two rows titled "X"; the dict resolves "X" to row 1
(song 2), never row 0. -/
theorem duplicate_titles_witness :
    songIdxDict [SongDetail.mk 1 "X" "Pop", SongDetail.mk 2 "X" "Rock"] "X" =
      some 1 ∧
    (1 : Nat) < 2 ∧
    ([SongDetail.mk 1 "X" "Pop", SongDetail.mk 2 "X" "Rock"].getD 1
      default).title = "X" ∧
    (∀ j, j < 2 →
      ([SongDetail.mk 1 "X" "Pop", SongDetail.mk 2 "X" "Rock"].getD j
        default).title = "X" → j ≤ 1) := by
  have h : songIdxDict [SongDetail.mk 1 "X" "Pop",
      SongDetail.mk 2 "X" "Rock"] "X" = some 1 := by decide
  have hspec := duplicate_titles_resolve_to_last_occurrence
    [SongDetail.mk 1 "X" "Pop", SongDetail.mk 2 "X" "Rock"] "X" 1 h
  exact ⟨h, by decide, hspec.2.1, fun j hj hjt => hspec.2.2.1 j hj hjt⟩

/-! ### C4: failed (re)initialization and state atomicity -/

/-- A Ready engine state, produced by one successful initialization. -/
def readyStateCE : EngineState :=
  (initializeEngine initialEngineState
    (.ok [Interaction.mk 1 1 5]) (.ok [SongDetail.mk 1 "A" "Pop"])
    (fun _ => none)).1

/-- A later refresh of `readyStateCE` whose **second** provider call
fails after the first succeeded. -/
def failedRefreshCE : EngineState × Option InitError :=
  initializeEngine readyStateCE
    (.ok [Interaction.mk 2 2 7]) (.error ()) (fun _ => none)

/-- Counterexample to C4: on a Ready engine, a reinitialization whose
second data-provider call fails leaves the engine half-updated — the
attempt fails (`upstream`), the Ready flag still reads `true`, but the
frequency table has already been replaced by the new fetch, so the
previously published data-structure set is **not** exactly what it was
before the attempt. -/
theorem initialize_failed_refresh_leaves_half_updated_state :
    readyStateCE.is_initialized = true ∧
    readyStateCE.song_frequency_df = some [Interaction.mk 1 1 5] ∧
    failedRefreshCE.2 = some InitError.upstream ∧
    failedRefreshCE.1.is_initialized = true ∧
    failedRefreshCE.1.song_frequency_df = some [Interaction.mk 2 2 7] ∧
    failedRefreshCE.1.song_frequency_df ≠ readyStateCE.song_frequency_df ∧
    failedRefreshCE.1.song_details_df = readyStateCE.song_details_df := by
  refine ⟨rfl, rfl, rfl, rfl, rfl, ?_, rfl⟩
  decide

/-- C4 amended: if the **first** data-provider call fails, the whole
engine state (Ready flag included) is exactly as before the attempt; if
a **later** provider call fails, the attempt fails with every structure
and the Ready flag unchanged **except** the frequency table, which has
already been replaced — a failed refresh can leave the engine
half-updated, with the stale Ready state still authoritative. -/
theorem initialize_upstream_failure_mutation_prefix
    (st : EngineState)
    (svd : List (List ℚ) → Option (List (List ℚ))) :
    (∀ detRes : Except Unit (List SongDetail),
      initializeEngine st (.error ()) detRes svd = (st, some .upstream)) ∧
    (∀ recs : List Interaction,
      initializeEngine st (.ok recs) (.error ()) svd =
        ({ st with song_frequency_df := some recs }, some .upstream)) :=
  ⟨fun _ => rfl, fun _ => rfl⟩

/-! ### C2: degenerate input and matrix construction -/

/-- A record set with no distinct users or no distinct songs is the
empty record set. -/
theorem recs_eq_nil_of_degenerate (recs : List Interaction)
    (h : numUsers recs = 0 ∨ numSongs recs = 0) : recs = [] := by
  by_contra hne
  rcases List.exists_mem_of_ne_nil recs hne with ⟨r, hr⟩
  rcases h with h | h
  · have hmem : r.userid ∈ npUnique (userIds recs) :=
      mem_npUnique.mpr (List.mem_map_of_mem _ hr)
    have hpos := List.length_pos.mpr (List.ne_nil_of_mem hmem)
    unfold numUsers at h
    omega
  · have hmem : r.songid ∈ npUnique (songIds recs) :=
      mem_npUnique.mpr (List.mem_map_of_mem _ hr)
    have hpos := List.length_pos.mpr (List.ne_nil_of_mem hmem)
    unfold numSongs at h
    omega

/-- Counterexample to C2: on the empty record set (M = 0 and N = 0) the
attempt does fail before factorization, but **not with a `DataError`**:
no such typed error exists in the code.  The csr constructor rejects the
empty object-dtype data column and the untyped library error propagates
out of `initialize` as a generic fault.  The probe reducer's output
`[[42]]` never reaches the state: factorization is not attempted. -/
theorem empty_input_fails_with_untyped_library_error :
    numUsers [] = 0 ∧ numSongs [] = 0 ∧
    initializeEngine initialEngineState (.ok []) (.ok [])
        (fun _ => some [[(42 : ℚ)]]) =
      ({ initialEngineState with
          song_frequency_df := some []
          song_details_df := some [] },
        some InitError.library) ∧
    (initializeEngine initialEngineState (.ok []) (.ok [])
        (fun _ => some [[(42 : ℚ)]])).1.reduced_matrix = none := by
  exact ⟨rfl, rfl, rfl, rfl⟩

/-- C2 amended: for every record set with M = 0 or N = 0 distinct
users/songs (equivalently, an empty record set), the initialization
attempt fails before any factorization is attempted and the degenerate
matrix is never passed to the dimensionality reducer — but with an
untyped library rejection raised inside matrix construction (after the
mappers were assigned), not with a typed `DataError`, which does not
exist in the code; the Ready flag and the statistics snapshot are left
as they were. -/
theorem degenerate_input_fails_before_factorization
    (st : EngineState) (details : List SongDetail)
    (recs : List Interaction)
    (svd : List (List ℚ) → Option (List (List ℚ)))
    (h : numUsers recs = 0 ∨ numSongs recs = 0) :
    (initializeEngine st (.ok recs) (.ok details) svd).2 =
      some InitError.library ∧
    (initializeEngine st (.ok recs) (.ok details) svd).1.reduced_matrix =
      st.reduced_matrix ∧
    (initializeEngine st (.ok recs) (.ok details) svd).1.is_initialized =
      st.is_initialized ∧
    (initializeEngine st (.ok recs) (.ok details) svd).1.system_stats =
      st.system_stats := by
  obtain rfl := recs_eq_nil_of_degenerate recs h
  exact ⟨rfl, rfl, rfl, rfl⟩

/-- Witness for the amended C2 at the empty record set. -/
theorem degenerate_input_witness :
    (numUsers [] = 0 ∨ numSongs [] = 0) ∧
    (initializeEngine initialEngineState (.ok []) (.ok [])
        (fun _ => none)).2 = some InitError.library := by
  have h : numUsers [] = 0 ∨ numSongs [] = 0 := Or.inl rfl
  exact ⟨h, (degenerate_input_fails_before_factorization
    initialEngineState [] [] (fun _ => none) h).1⟩

/-! ### C8: the published sparsity statistic -/

theorem pyRound_intCast (d : Nat) (n : ℤ) : pyRound d ((n : ℚ)) = (n : ℚ) := by
  unfold pyRound
  have h : (n : ℚ) * (10 ^ d : ℚ) = ((n * 10 ^ d : ℤ) : ℚ) := by
    push_cast; ring
  rw [h, round_intCast]
  push_cast
  rw [mul_div_assoc, div_self (by positivity), mul_one]

/-- With strictly positive play counts, the stored coordinates of the
csr matrix are exactly the grid cells holding a non-zero value. -/
theorem coord_toFinset_eq_nonzero_cells (recs : List Interaction)
    (hpos : ∀ r ∈ recs, 0 < r.plays) :
    (recs.map fun r =>
        (userMapperFwd recs r.userid, songMapperFwd recs r.songid)).toFinset =
      (Finset.range (numUsers recs) ×ˢ Finset.range (numSongs recs)).filter
        (fun p => userItemCell recs p.1 p.2 ≠ 0) := by
  ext p
  obtain ⟨i, j⟩ := p
  simp only [List.mem_toFinset, List.mem_map, Finset.mem_filter,
    Finset.mem_product, Finset.mem_range, Prod.mk.injEq]
  constructor
  · rintro ⟨r, hr, heq1, heq2⟩
    refine ⟨⟨?_, ?_⟩, ?_⟩
    · rw [← heq1]
      exact List.indexOf_lt_length.mpr
        (mem_npUnique.mpr (List.mem_map_of_mem _ hr))
    · rw [← heq2]
      exact List.indexOf_lt_length.mpr
        (mem_npUnique.mpr (List.mem_map_of_mem _ hr))
    · intro h0
      have hmem : (if userMapperFwd recs r.userid = i ∧
          songMapperFwd recs r.songid = j then r.plays else 0) ∈
          recs.map fun r => if userMapperFwd recs r.userid = i ∧
            songMapperFwd recs r.songid = j then r.plays else 0 :=
        List.mem_map_of_mem _ hr
      have hz := List.sum_eq_zero_iff.mp h0 _ hmem
      rw [if_pos ⟨heq1, heq2⟩] at hz
      exact absurd hz (Nat.pos_iff_ne_zero.mp (hpos r hr))
  · rintro ⟨⟨_, _⟩, hcell⟩
    have : ¬ ∀ x ∈ recs.map fun r => if userMapperFwd recs r.userid = i ∧
        songMapperFwd recs r.songid = j then r.plays else 0, x = 0 :=
      fun hall => hcell (List.sum_eq_zero_iff.mpr hall)
    push_neg at this
    rcases this with ⟨x, hx, hxne⟩
    rcases List.mem_map.mp hx with ⟨r, hr, hrx⟩
    by_cases hcond : userMapperFwd recs r.userid = i ∧
        songMapperFwd recs r.songid = j
    · exact ⟨r, hr, hcond.1, hcond.2⟩
    · rw [if_neg hcond] at hrx
      exact absurd hrx.symm hxne

/-- Counterexample to C8: a single record with `plays = 0` produces a
1×1 matrix whose only cell is zero, yet csr stores the explicit zero, so
`nnz = 1` and the published `sparsity` is `100`, while the percentage of
non-zero cells is `0`. -/
theorem sparsity_counts_explicit_zero_entries :
    (calcSystemStats [Interaction.mk 1 10 0]
        [SongDetail.mk 10 "T" "Pop"]).map (fun st => st.sparsity) =
      some 100 ∧
    numUsers [Interaction.mk 1 10 0] = 1 ∧
    numSongs [Interaction.mk 1 10 0] = 1 ∧
    userItemCell [Interaction.mk 1 10 0] 0 0 = 0 ∧
    nnzVal [Interaction.mk 1 10 0] = 1 ∧
    nonzeroCellsVal [Interaction.mk 1 10 0] = 0 ∧
    pyRound 4 (((nonzeroCellsVal [Interaction.mk 1 10 0] : ℚ) / 1) * 100) =
      0 ∧
    ((0 : ℚ) ≠ 100) := by
  refine ⟨?_, rfl, rfl, rfl, rfl, rfl, ?_, by norm_num⟩
  · unfold calcSystemStats
    rw [if_neg (show ¬ (numUsers [Interaction.mk 1 10 0] *
        numSongs [Interaction.mk 1 10 0] = 0) by decide)]
    refine congrArg some ?_
    rw [show nnzVal [Interaction.mk 1 10 0] = 1 from rfl,
      show numUsers [Interaction.mk 1 10 0] *
        numSongs [Interaction.mk 1 10 0] = 1 from rfl]
    rw [show ((1:ℕ):ℚ) / ((1:ℕ):ℚ) * 100 = ((100:ℤ):ℚ) from by norm_num]
    rw [pyRound_intCast]
    norm_num
  · rw [show nonzeroCellsVal [Interaction.mk 1 10 0] = 0 from rfl]
    rw [show ((0:ℕ):ℚ) / 1 * 100 = (((0:ℤ)):ℚ) from by norm_num]
    rw [pyRound_intCast]
    norm_num

/-- C8 amended: the published `sparsity` equals
`nnz / (M*N) * 100` rounded to 4 decimals, where `nnz` counts the
**stored** entries of the csr matrix (distinct (user, song) coordinate
pairs, explicit zeros included); when every record has a strictly
positive play count this coincides with the percentage of non-zero
cells, but records with `plays = 0` are counted although their cells
are zero. -/
theorem sparsity_is_stored_entry_density
    (recs : List Interaction) (details : List SongDetail) (st : SysStats)
    (h : calcSystemStats recs details = some st) :
    st.sparsity = pyRound 4 ((nnzVal recs : ℚ) /
        ((numUsers recs * numSongs recs : Nat) : ℚ) * 100) ∧
    ((∀ r ∈ recs, 0 < r.plays) → nnzVal recs = nonzeroCellsVal recs) := by
  constructor
  · unfold calcSystemStats at h
    by_cases hz : numUsers recs * numSongs recs = 0
    · rw [if_pos hz] at h; cases h
    · rw [if_neg hz] at h
      cases h
      rfl
  · intro hpos
    unfold nnzVal nonzeroCellsVal
    rw [coord_toFinset_eq_nonzero_cells recs hpos]

/-- Witness for the amended C8 at a concrete record set with positive
play counts. -/
theorem sparsity_witness :
    (∀ r ∈ [Interaction.mk 1 10 2], 0 < r.plays) ∧
    nnzVal [Interaction.mk 1 10 2] =
      nonzeroCellsVal [Interaction.mk 1 10 2] := by
  obtain ⟨st, hst⟩ : ∃ st, calcSystemStats [Interaction.mk 1 10 2]
      [SongDetail.mk 10 "T" "Pop"] = some st := ⟨_, rfl⟩
  exact ⟨by decide, (sparsity_is_stored_entry_density [Interaction.mk 1 10 2]
    [SongDetail.mk 10 "T" "Pop"] st hst).2 (by decide)⟩

/-! ### C1: content-based self-exclusion -/

theorem nodup_of_pairwise_tags {α : Type*} (t : α → Nat) {l : List α}
    (hl : l.Pairwise (fun a b => t a < t b)) : l.Nodup :=
  hl.imp fun h heq => absurd (heq ▸ h) (lt_irrefl _)

/-- If `x` carries the strictly greatest sort key among elements of `l`
(ties allowed only at strictly larger tags), the stable descending sort
puts `x` first, and only once. -/
theorem sortDesc_cons_of_max {α : Type*} (p : α → ℚ) (t : α → Nat)
    (l : List α) (x : α)
    (hl : l.Pairwise (fun a b => t a < t b))
    (hx : x ∈ l)
    (hmax : ∀ y ∈ l, p y ≤ p x)
    (htie : ∀ y ∈ l, p y = p x → t x ≤ t y) :
    ∃ tl, sortDesc p l = x :: tl ∧ x ∉ tl := by
  have hperm := sortDesc_perm p l
  have hpw := sortDesc_pairwise_descTie p t l hl
  have hxL : x ∈ sortDesc p l := mem_sortDesc.mpr hx
  cases hL : sortDesc p l with
  | nil => rw [hL] at hxL; cases hxL
  | cons y tl =>
    rw [hL] at hxL hpw hperm
    rcases List.pairwise_cons.mp hpw with ⟨hy, _⟩
    have hyx : y = x := by
      rcases List.mem_cons.mp hxL with h | h
      · exact h.symm
      · rcases hy x h with hlt | ⟨heq, httag⟩
        · exact absurd hlt (not_lt.mpr (hmax y (hperm.subset (by simp))))
        · exact absurd httag (not_lt.mpr (htie y (hperm.subset (by simp)) heq))
    subst hyx
    refine ⟨tl, rfl, ?_⟩
    have hnd : (y :: tl).Nodup :=
      hperm.nodup_iff.mpr (nodup_of_pairwise_tags t hl)
    exact (List.nodup_cons.mp hnd).1

theorem genreAt_mem_genreCols (details : List SongDetail) (i : Nat)
    (hi : i < details.length) :
    genreAt details i ∈ genreCols details := by
  unfold genreAt genreCols
  rw [List.getD_eq_getElem _ _ hi]
  exact List.mem_dedup.mpr (List.mem_map_of_mem _ (List.getElem_mem hi))

/-- The cosine similarity of two catalog rows is the indicator of their
genres being equal. -/
theorem cosineSim_eq_ite (details : List SongDetail) (i j : Nat)
    (hi : i < details.length) :
    cosineSim details i j =
      if genreAt details i = genreAt details j then 1 else 0 :=
  dotQ_oneHotRow _ _ _ (List.nodup_dedup _) (genreAt_mem_genreCols details i hi)

theorem simScores_pairwise_fst (details : List SongDetail) (idx : Nat) :
    (simScores details idx).Pairwise (fun a b => a.1 < b.1) :=
  List.pairwise_map.mpr (List.pairwise_lt_range _)

theorem mem_simScores {details : List SongDetail} {idx : Nat}
    {q : Nat × ℚ} (h : q ∈ simScores details idx) :
    q.1 < details.length ∧ q.2 = cosineSim details idx q.1 := by
  rcases List.mem_map.mp h with ⟨j, hj, rfl⟩
  exact ⟨List.mem_range.mp hj, rfl⟩

theorem songid_ne_of_nodup (details : List SongDetail)
    (hnd : (details.map (·.songid)).Nodup) {i j : Nat}
    (hi : i < details.length) (hj : j < details.length) (hne : i ≠ j) :
    (details.getD i default).songid ≠ (details.getD j default).songid := by
  rw [List.getD_eq_getElem _ _ hi, List.getD_eq_getElem _ _ hj]
  intro heq
  have hinj := List.nodup_iff_injective_get.mp hnd
  have hlen : (details.map (·.songid)).length = details.length := by simp
  have h1 : (details.map (·.songid)).get ⟨i, by omega⟩ =
      (details.map (·.songid)).get ⟨j, by omega⟩ := by
    simp only [List.get_eq_getElem, List.getElem_map]
    exact heq
  have := hinj h1
  exact hne (by simpa using congrArg Fin.val this)

/-- C1 amended: when the fuzzy match resolves the query to row `idx`,
the returned list is the similarity row sorted descending with ties
broken by ascending row index, truncated to `n`; the matched row itself
is dropped **provided no row with a smaller index shares its genre** (so
ranks strictly before it in the tie order) — under that proviso, and
with distinct catalog song ids, the matched row's `song_id` never
appears in its own recommendation list. -/
theorem content_recommendations_sorted_self_excluded_when_first
    (score : String → String → Nat) (details : List SongDetail)
    (query matched : String) (idx n : Nat)
    (hm : extractOne score query (details.map (·.title)) = some matched)
    (hi : songIdxDict details matched = some idx)
    (hfirst : ∀ j, j < idx → genreAt details j ≠ genreAt details idx) :
    getContentBasedRecommendations score details query n =
      .ok (matched,
        (contentRecRows details idx n).map (mkContentInfo details)) ∧
    (contentRecRows details idx n).Pairwise
      (fun a b => b.2 < a.2 ∨ (a.2 = b.2 ∧ a.1 < b.1)) ∧
    (contentRecRows details idx n).length ≤ n ∧
    (∀ p ∈ contentRecRows details idx n, p.1 ≠ idx) ∧
    ((details.map (·.songid)).Nodup →
      ∀ e ∈ (contentRecRows details idx n).map (mkContentInfo details),
        e.song_id ≠ (details.getD idx default).songid) := by
  have hidxlen : idx < details.length := by
    have := (buildIdx_spec matched details 0 idx hi).2.1
    simpa using this
  have hself : cosineSim details idx idx = 1 := by
    rw [cosineSim_eq_ite details idx idx hidxlen, if_pos rfl]
  have hmemx : ((idx, (1 : ℚ)) : Nat × ℚ) ∈ simScores details idx := by
    have : ((idx, cosineSim details idx idx) : Nat × ℚ) ∈
        simScores details idx :=
      List.mem_map_of_mem _ (List.mem_range.mpr hidxlen)
    rwa [hself] at this
  have hmax : ∀ y ∈ simScores details idx, y.2 ≤ ((idx, (1:ℚ)) : Nat × ℚ).2 := by
    intro y hy
    rcases mem_simScores hy with ⟨hy1, hy2⟩
    rw [hy2, cosineSim_eq_ite details idx y.1 hidxlen]
    split_ifs <;> norm_num
  have htie : ∀ y ∈ simScores details idx,
      y.2 = ((idx, (1:ℚ)) : Nat × ℚ).2 → ((idx, (1:ℚ)) : Nat × ℚ).1 ≤ y.1 := by
    intro y hy hyeq
    rcases mem_simScores hy with ⟨hy1, hy2⟩
    by_contra hlt
    push_neg at hlt
    have hne := hfirst y.1 hlt
    rw [hy2, cosineSim_eq_ite details idx y.1 hidxlen] at hyeq
    by_cases hg : genreAt details idx = genreAt details y.1
    · exact hne hg.symm
    · rw [if_neg hg] at hyeq
      norm_num at hyeq
  rcases sortDesc_cons_of_max (fun q => q.2) (fun q => q.1)
      (simScores details idx) (idx, (1:ℚ))
      (simScores_pairwise_fst details idx) hmemx hmax htie with
    ⟨tl, hL, hnotin⟩
  have hrows : contentRecRows details idx n = tl.take n := by
    unfold contentRecRows
    rw [hL]
    rfl
  have hsubtl : ∀ p ∈ contentRecRows details idx n, p ∈ tl := by
    intro p hp
    rw [hrows] at hp
    exact (List.take_sublist n tl).subset hp
  have hmemSim : ∀ p ∈ contentRecRows details idx n,
      p ∈ simScores details idx := by
    intro p hp
    have : p ∈ sortDesc (fun q => q.2) (simScores details idx) := by
      rw [hL]
      exact List.mem_cons.mpr (Or.inr (hsubtl p hp))
    exact mem_sortDesc.mp this
  have hne_idx : ∀ p ∈ contentRecRows details idx n, p.1 ≠ idx := by
    intro p hp heq
    rcases mem_simScores (hmemSim p hp) with ⟨_, hp2⟩
    have : p = (idx, (1:ℚ)) := by
      have : p = (p.1, p.2) := rfl
      rw [this, heq, hp2, heq, hself]
    exact hnotin (this ▸ hsubtl p hp)
  refine ⟨?_, ?_, ?_, hne_idx, ?_⟩
  · simp only [getContentBasedRecommendations, hm, hi]
  · have hpw := sortDesc_pairwise_descTie (fun q : Nat × ℚ => q.2)
      (fun q => q.1) (simScores details idx)
      (simScores_pairwise_fst details idx)
    rw [hL] at hpw
    have htl := (List.pairwise_cons.mp hpw).2
    rw [hrows]
    exact htl.sublist (List.take_sublist n tl)
  · rw [hrows]
    exact List.length_take_le n tl
  · intro hnd e he
    rcases List.mem_map.mp he with ⟨p, hp, rfl⟩
    have hplen : p.1 < details.length := (mem_simScores (hmemSim p hp)).1
    exact songid_ne_of_nodup details hnd hplen hidxlen (hne_idx p hp)

/-- A concrete fuzzy scorer agreeing with fuzzywuzzy's `WRatio` on the
strings of the counterexample below: identical strings score 100, the
fully dissimilar pair ("B", "A") scores 0. -/
def scoreCE (q c : String) : Nat :=
  if q = c then 100 else 0

/-- The two-song catalog of the counterexample: both songs share the
genre "Pop"; the query title "B" belongs to row 1 (song 2). -/
def detailsCE : List SongDetail :=
  [SongDetail.mk 1 "A" "Pop", SongDetail.mk 2 "B" "Pop"]

/-- Counterexample to C1: the catalog `detailsCE` contains the query
title "B" exactly, the fuzzy match resolves it to its own row 1
(song 2) — yet the recommendation list for "B" is exactly
`[song 2]`: the matched row's own `song_id`.  The stable descending
sort puts the *other* similarity-1 row (row 0, smaller index) first,
so dropping one leading entry removes row 0 and keeps the query row. -/
theorem content_recommendation_contains_matched_song :
    extractOne scoreCE "B" (detailsCE.map (·.title)) = some "B" ∧
    songIdxDict detailsCE "B" = some 1 ∧
    (detailsCE.getD 1 default).songid = 2 ∧
    getContentBasedRecommendations scoreCE detailsCE "B" 10 =
      .ok ("B", [SongInfo.mk 2 "B" (some "Pop") none (some 1)]) := by
  have hm : extractOne scoreCE "B" (detailsCE.map (·.title)) = some "B" := by
    decide
  have hi : songIdxDict detailsCE "B" = some 1 := by decide
  refine ⟨hm, hi, by decide, ?_⟩
  have hc0 : cosineSim detailsCE 1 0 = 1 := by
    rw [cosineSim_eq_ite detailsCE 1 0 (by decide)]
    decide
  have hc1 : cosineSim detailsCE 1 1 = 1 := by
    rw [cosineSim_eq_ite detailsCE 1 1 (by decide)]
    decide
  have hsim : simScores detailsCE 1 = [(0, (1:ℚ)), (1, (1:ℚ))] := by
    unfold simScores
    rw [show detailsCE.length = 2 from rfl]
    rw [show List.range 2 = [0, 1] from rfl]
    simp [hc0, hc1]
  have hsort : sortDesc (fun p => p.2) [((0 : Nat), (1:ℚ)), (1, (1:ℚ))] =
      [(0, (1:ℚ)), (1, (1:ℚ))] := by
    simp [sortDesc, insertDesc]
  have hrows : contentRecRows detailsCE 1 10 = [(1, (1:ℚ))] := by
    unfold contentRecRows
    rw [hsim, hsort]
    rfl
  simp only [getContentBasedRecommendations, hm, hi, hrows]
  rfl

/-- Witness for the amended C1: querying "B" in a catalog where no
earlier row shares its genre excludes the matched song. -/
theorem content_recommendation_witness :
    extractOne scoreCE "B"
      ([SongDetail.mk 1 "A" "Rock", SongDetail.mk 2 "B" "Pop"].map
        (·.title)) = some "B" ∧
    songIdxDict [SongDetail.mk 1 "A" "Rock", SongDetail.mk 2 "B" "Pop"]
      "B" = some 1 ∧
    (∀ p ∈ contentRecRows
        [SongDetail.mk 1 "A" "Rock", SongDetail.mk 2 "B" "Pop"] 1 10,
      p.1 ≠ 1) := by
  have hm : extractOne scoreCE "B"
      ([SongDetail.mk 1 "A" "Rock", SongDetail.mk 2 "B" "Pop"].map
        (·.title)) = some "B" := by decide
  have hi : songIdxDict
      [SongDetail.mk 1 "A" "Rock", SongDetail.mk 2 "B" "Pop"] "B" =
      some 1 := by decide
  have hfirst : ∀ j, j < 1 →
      genreAt [SongDetail.mk 1 "A" "Rock", SongDetail.mk 2 "B" "Pop"] j ≠
      genreAt [SongDetail.mk 1 "A" "Rock", SongDetail.mk 2 "B" "Pop"] 1 := by
    decide
  exact ⟨hm, hi,
    (content_recommendations_sorted_self_excluded_when_first scoreCE
      [SongDetail.mk 1 "A" "Rock", SongDetail.mk 2 "B" "Pop"]
      "B" "B" 1 10 hm hi hfirst).2.2.2.1⟩

/-! ### C3: collaborative neighbor search -/

/-- C3 amended: whenever `find_similar_songs` succeeds, the result has
at most `k` entries, each entry's similarity is `1 - d` for the cosine
selector and `1 / (1 + d)` for every other selector (Euclidean
included), where `d` is the entry's distance to the query row — and the
query song itself is excluded **provided its row is the strictly
nearest row among those of smaller index** (no row with a smaller index
at distance 0); a duplicate factor row with a smaller index displaces
the query row from the dropped first position, in which case the query
song itself can be returned. -/
theorem similar_songs_bounded_scored_self_excluded_when_unique_min
    (db : Nat → Option DbRow) (recs : List Interaction)
    (X : List (List ℚ)) (dist : List ℚ → List ℚ → ℚ) (metric : String)
    (songId k : Nat)
    (hmem : songId ∈ npUnique (songIds recs))
    (hXlen : X.length = numSongs recs)
    (hklen : ¬ X.length < k + 1)
    (hd0 : dist (X.getD (songMapperFwd recs songId) [])
      (X.getD (songMapperFwd recs songId) []) = 0)
    (hnn : ∀ j, j < X.length →
      0 ≤ dist (X.getD j []) (X.getD (songMapperFwd recs songId) []))
    (hne0 : ∀ j, j < songMapperFwd recs songId →
      dist (X.getD j []) (X.getD (songMapperFwd recs songId) []) ≠ 0) :
    ∃ res, findSimilarSongs db recs X dist metric songId k = .ok res ∧
      res.length ≤ k ∧
      (∀ e ∈ res, e.song_id ≠ songId) ∧
      (∀ e ∈ res, ∃ j, j < X.length ∧ j ≠ songMapperFwd recs songId ∧
        e.similarity_score = some (if metric = "cosine"
          then 1 - dist (X.getD j []) (X.getD (songMapperFwd recs songId) [])
          else 1 / (1 + dist (X.getD j [])
            (X.getD (songMapperFwd recs songId) [])))) := by
  set songInd := songMapperFwd recs songId with hsi
  set q := X.getD songInd [] with hq
  have hq' : X.getD songInd [] = q := rfl
  have hsilen : songInd < X.length := by
    rw [hXlen]
    exact List.indexOf_lt_length.mpr hmem
  rcases sortDesc_cons_of_max (fun i => -(dist (X.getD i []) q)) id
      (List.range X.length) songInd (List.pairwise_lt_range _)
      (List.mem_range.mpr hsilen)
      (fun y hy => by
        simp only [hq', hd0, neg_zero]
        exact neg_nonpos.mpr (hnn y (List.mem_range.mp hy)))
      (fun y _ hyeq => by
        by_contra hlt
        push_neg at hlt
        simp only [id_eq] at hlt
        simp only [hq', hd0, neg_zero, neg_eq_zero] at hyeq
        exact hne0 y hlt hyeq) with ⟨tl, hL, hnotin⟩
  have htl_sub : ∀ i ∈ tl, i ∈ List.range X.length := by
    intro i hi
    have : i ∈ sortDesc (fun i => -(dist (X.getD i []) q))
        (List.range X.length) := by
      rw [hL]; exact List.mem_cons.mpr (Or.inr hi)
    exact mem_sortDesc.mp this
  have hknn : kNeighborIndices dist X q (k + 1) = songInd :: tl.take k := by
    unfold kNeighborIndices
    rw [hL]
    rfl
  have heq : findSimilarSongs db recs X dist metric songId k =
      .ok (((kNeighborIndices dist X q (k + 1)).drop 1).filterMap
        fun idx => getSongInfo db ((npUnique (songIds recs)).getD idx 0)
          (some (if metric = "cosine" then 1 - dist (X.getD idx []) q
            else 1 / (1 + dist (X.getD idx []) q)))) := by
    unfold findSimilarSongs
    rw [if_pos hmem, if_neg hklen]
  refine ⟨_, heq, ?_, ?_, ?_⟩
  · rw [hknn]
    exact le_trans (List.length_filterMap_le _ _)
      (by simp [List.length_take])
  · intro e he
    rw [hknn] at he
    simp only [List.drop_succ_cons, List.drop_zero] at he
    rcases List.mem_filterMap.mp he with ⟨idx, hidx, hsome⟩
    have hidxtl : idx ∈ tl := (List.take_sublist k tl).subset hidx
    have hidxrange : idx < X.length := List.mem_range.mp (htl_sub idx hidxtl)
    have hidxne : idx ≠ songInd := by
      intro h
      exact hnotin (h ▸ hidxtl)
    rcases getSongInfo_eq_some hsome with ⟨hid, _⟩
    rw [hid]
    intro hcontra
    have hlen' : idx < (npUnique (songIds recs)).length := by
      have h := hidxrange; rw [hXlen] at h; exact h
    have hlen'' : songInd < (npUnique (songIds recs)).length := by
      have h := hsilen; rw [hXlen] at h; exact h
    have hgid : (npUnique (songIds recs)).getD songInd 0 = songId := by
      rw [List.getD_eq_getElem _ _ hlen'']
      exact List.getElem_indexOf (List.indexOf_lt_length.mpr hmem)
    have : (npUnique (songIds recs)).getD idx 0 =
        (npUnique (songIds recs)).getD songInd 0 := by rw [hcontra, hgid]
    rw [List.getD_eq_getElem _ _ hlen', List.getD_eq_getElem _ _ hlen''] at this
    have hinj := List.nodup_iff_injective_get.mp (npUnique_nodup (songIds recs))
    have := hinj (show (npUnique (songIds recs)).get ⟨idx, hlen'⟩ =
      (npUnique (songIds recs)).get ⟨songInd, hlen''⟩ by
        simpa using this)
    exact hidxne (by simpa using congrArg Fin.val this)
  · intro e he
    rw [hknn] at he
    simp only [List.drop_succ_cons, List.drop_zero] at he
    rcases List.mem_filterMap.mp he with ⟨idx, hidx, hsome⟩
    have hidxtl : idx ∈ tl := (List.take_sublist k tl).subset hidx
    have hidxrange : idx < X.length := List.mem_range.mp (htl_sub idx hidxtl)
    have hidxne : idx ≠ songInd := fun h => hnotin (h ▸ hidxtl)
    rcases getSongInfo_eq_some hsome with ⟨_, hsim⟩
    exact ⟨idx, hidxrange, hidxne, hsim⟩

/-- Euclidean distance between two one-dimensional factor rows (the
factor space of a single-user interaction matrix): `|a - b|`. -/
def eucDist1 (x y : List ℚ) : ℚ :=
  |x.headD 0 - y.headD 0|

/-- The interaction records of the C3 counterexample: one user played
songs 10 and 20 five times each, so the two song columns of the
interaction matrix are identical.  (With a single user the transposed
matrix has one column, so the rank-20 SVD fails and the engine falls
back to the raw factor space `rawFactorMatrix`.) -/
def recsCE3 : List Interaction :=
  [Interaction.mk 1 10 5, Interaction.mk 1 20 5]

/-- The data provider of the C3 counterexample. -/
def dbCE3 : Nat → Option DbRow := fun sid =>
  if sid = 10 then some ⟨"A", some "Pop", none⟩
  else if sid = 20 then some ⟨"B", some "Pop", none⟩
  else none

theorem rawFactorMatrix_recsCE3 :
    rawFactorMatrix recsCE3 = [[(5 : ℚ)], [(5 : ℚ)]] := by
  unfold rawFactorMatrix
  rw [show numSongs recsCE3 = 2 from rfl, show numUsers recsCE3 = 1 from rfl]
  rw [show List.range 2 = [0, 1] from rfl, show List.range 1 = [0] from rfl]
  simp only [List.map_cons, List.map_nil]
  rw [show userItemCell recsCE3 0 0 = 5 from rfl,
    show userItemCell recsCE3 0 1 = 5 from rfl]
  norm_num

/-- Counterexample to C3: song 20's factor row duplicates song 10's
row, which has the smaller column index; the neighbor order therefore
starts with row 0, the code drops that entry as the supposed
self-match, and the result of `find_similar_songs(20, k=1, euclidean)`
is song 20 itself, with similarity `1/(1+0) = 1`. -/
theorem similar_songs_returns_query_song :
    findSimilarSongs dbCE3 recsCE3 (rawFactorMatrix recsCE3) eucDist1
      "euclidean" 20 1 =
      .ok [SongInfo.mk 20 "B" (some "Pop") none (some 1)] := by
  have hmem : (20 : Nat) ∈ npUnique (songIds recsCE3) := by decide
  have hind : songMapperFwd recsCE3 20 = 1 := by decide
  unfold findSimilarSongs
  rw [if_pos hmem, rawFactorMatrix_recsCE3, hind]
  rw [if_neg (show ¬ ([[(5:ℚ)], [(5:ℚ)]].length < 1 + 1) by decide)]
  have hd00 : eucDist1 ([[(5:ℚ)], [(5:ℚ)]].getD 0 [])
      ([[(5:ℚ)], [(5:ℚ)]].getD 1 []) = 0 := by
    simp [eucDist1]
  have hd11 : eucDist1 ([[(5:ℚ)], [(5:ℚ)]].getD 1 [])
      ([[(5:ℚ)], [(5:ℚ)]].getD 1 []) = 0 := by
    simp [eucDist1]
  have hknn : kNeighborIndices eucDist1 [[(5:ℚ)], [(5:ℚ)]]
      ([[(5:ℚ)], [(5:ℚ)]].getD 1 []) 2 = [0, 1] := by
    unfold kNeighborIndices
    rw [show List.length [[(5:ℚ)], [(5:ℚ)]] = 2 from rfl,
      show List.range 2 = [0, 1] from rfl]
    unfold sortDesc
    simp only [List.foldl_cons, List.foldl_nil]
    rw [show insertDesc (fun i => -eucDist1 ([[(5:ℚ)], [(5:ℚ)]].getD i [])
        ([[(5:ℚ)], [(5:ℚ)]].getD 1 [])) 0 [] = [0] from rfl]
    simp only [insertDesc]
    rw [hd00, hd11]
    norm_num [List.take]
  rw [hknn]
  simp only [List.drop_succ_cons, List.drop_zero, List.filterMap_cons,
    List.filterMap_nil]
  rw [show (npUnique (songIds recsCE3)).getD 1 0 = 20 from rfl, hd11]
  rw [if_neg (show ¬ ("euclidean" : String) = "cosine" by decide)]
  norm_num [getSongInfo, dbCE3]

/-- Witness for the amended C3: with distinct factor rows the query
song (20) is excluded and at most `k = 1` entry is returned. -/
theorem similar_songs_self_excluded_witness :
    ((20 : Nat) ∈ npUnique (songIds [Interaction.mk 1 10 5,
      Interaction.mk 1 20 7])) ∧
    ∃ res, findSimilarSongs dbCE3
        [Interaction.mk 1 10 5, Interaction.mk 1 20 7]
        [[(5 : ℚ)], [(7 : ℚ)]] eucDist1 "euclidean" 20 1 = .ok res ∧
      res.length ≤ 1 ∧ (∀ e ∈ res, e.song_id ≠ 20) := by
  have hmem : (20 : Nat) ∈ npUnique (songIds [Interaction.mk 1 10 5,
      Interaction.mk 1 20 7]) := by decide
  have hind : songMapperFwd [Interaction.mk 1 10 5, Interaction.mk 1 20 7]
      20 = 1 := by decide
  rcases similar_songs_bounded_scored_self_excluded_when_unique_min dbCE3
      [Interaction.mk 1 10 5, Interaction.mk 1 20 7]
      [[(5 : ℚ)], [(7 : ℚ)]] eucDist1 "euclidean" 20 1 hmem
      (by decide)
      (by decide)
      (by rw [hind]; simp [eucDist1])
      (by intro j hj; unfold eucDist1; positivity)
      (by
        intro j hj
        rw [hind] at hj
        obtain rfl : j = 0 := by omega
        rw [hind]
        norm_num [eucDist1]) with ⟨res, h1, h2, h3, _⟩
  exact ⟨hmem, res, h1, h2, h3⟩
